import Mathlib

/- Formal model of the usb-pwm-fan utility scripts (usb_fan_config.py and
   atmega32u4_upload.py).  Buffers are lists of byte values; every index
   access the Python source performs with buf[i] (which raises IndexError
   when out of range) is modelled by the partial read buf[i]?, so a result
   of none marks a raised exception while some r is a normal return.
   Python slices clamp to the buffer and are modelled by drop and take. -/

namespace UsbPwmFan

/-- Descriptor type tag of a USB Binary Object Store descriptor. -/
def DESCRIPTOR_TYPE_BOS : Nat := 0x0f

/-- Descriptor type tag of a device capability descriptor. -/
def DESCRIPTOR_TYPE_DEVICE_CAPABILITY : Nat := 0x10

/-- Capability subtype tag of a platform capability descriptor. -/
def CAPABILITY_TYPE_PLATFORM : Nat := 0x05

/-- Required interface protocol major version, DEVICE_MAJOR in the source. -/
def DEVICE_MAJOR : Nat := 1

/-- Required interface protocol minor version, DEVICE_MINOR in the source. -/
def DEVICE_MINOR : Nat := 0

/-- Register number of the PWM period register. -/
def REGISTER_PWM_PERIOD : Nat := 0x11

/-- Register number of the serial number register. -/
def REGISTER_SERIAL_NUMBER : Nat := 0xf8

/-- The 16 bytes of DEVICE_UUID 1ad9f93b-494c-4dda-a1e5-2e2bab181052 in the
little-endian layout that uuid.UUID exposes as bytes_le.  The source parses
the 16 bytes at offset pos + 4 of a platform capability record with
uuid.UUID of bytes_le and compares the result against DEVICE_UUID; since
that construction is a bijection on 16-byte strings, the comparison is
equality of the raw bytes with this constant. -/
def DEVICE_UUID_BYTES_LE : List Nat :=
  [0x3b, 0xf9, 0xd9, 0x1a, 0x4c, 0x49, 0xda, 0x4d,
   0xa1, 0xe5, 0x2e, 0x2b, 0xab, 0x18, 0x10, 0x52]

/-- The while loop of UuidFinder.check_bos.  The loop counter num_caps is the
remaining capability count (byte 4 of the buffer at the first call), e is the
clamped total length and pos the cursor.  Python computes remain as the int
subtraction e - pos; since pos only grows and every use of remain is guarded
by a test equivalent to its truncated-subtraction form, Nat subtraction gives
the same branches.  The returned list collects the matching payload slices in
walk order. -/
def check_bos_loop (buf : List Nat) (e : Nat) : Nat → Nat → Option (List (List Nat))
  | _, 0 => some []
  | pos, num_caps + 1 =>
    if e - pos < 3 then some []
    else
      match buf[pos]? with
      | none => none
      | some len0 =>
        if len0 < 3 then some []
        else
          match buf[pos + 1]? with
          | none => none
          | some ty =>
            if ty ≠ DESCRIPTOR_TYPE_DEVICE_CAPABILITY then some []
            else if e - pos < len0 then some []
            else
              match buf[pos + 2]? with
              | none => none
              | some sub =>
                let rest := check_bos_loop buf e (pos + len0) num_caps
                if sub = CAPABILITY_TYPE_PLATFORM ∧ 20 ≤ len0 then
                  if (buf.drop (pos + 4)).take 16 = DEVICE_UUID_BYTES_LE then
                    Option.map (fun l => (buf.drop (pos + 20)).take (len0 - 20) :: l) rest
                  else rest
                else rest

/-- The value UuidFinder.check_bos returns on a normal exit: Python False for
a buffer rejected by the header test, or the list of matching payloads. -/
inductive BosResult where
  | noBos
  | caps (data : List (List Nat))
deriving DecidableEq

/-- The match set carried by a check_bos result; Python treats the False
return and an empty payload list identically (both are falsy). -/
def bosMatches : BosResult → List (List Nat)
  | .noBos => []
  | .caps l => l

/-- UuidFinder.check_bos.  The header test reads byte 0 and byte 1 only after
the length guard, mirroring the short-circuit evaluation in the source; the
walk end e is the declared total length from bytes 2 and 3 (little endian)
clamped to the real buffer length, and byte 4 is the capability count. -/
def check_bos (buf : List Nat) : Option BosResult :=
  if buf.length < 5 then some .noBos
  else
    match buf[0]? with
    | none => none
    | some b0 =>
      if b0 < 5 then some .noBos
      else
        match buf[1]? with
        | none => none
        | some b1 =>
          if b1 ≠ DESCRIPTOR_TYPE_BOS then some .noBos
          else
            match buf[2]?, buf[3]?, buf[4]? with
            | some b2, some b3, some b4 =>
              Option.map .caps
                (check_bos_loop buf (min buf.length (b2 + b3 * 256)) 5 b4)
            | _, _, _ => none

/-- Helper for C1: the capability walk always returns normally (never none),
because every index read is guarded so that it stays inside the buffer
whenever the clamped end e lies inside the buffer. -/
theorem check_bos_loop_isSome (buf : List Nat) (e : Nat) (he : e ≤ buf.length) :
    ∀ n pos, (check_bos_loop buf e pos n).isSome := by
  intro n
  induction n with
  | zero => intro pos; simp [check_bos_loop]
  | succ k ih =>
    intro pos
    rw [check_bos_loop]
    split
    · simp
    next h1 =>
      split
      next heq =>
        exfalso
        rw [List.getElem?_eq_none_iff] at heq
        omega
      next len0 heq =>
        split
        · simp
        · split
          next heq1 =>
            exfalso
            rw [List.getElem?_eq_none_iff] at heq1
            omega
          next ty heq1 =>
            split
            · simp
            next h2 =>
              split
              · simp
              next h3 =>
                split
                next heq2 =>
                  exfalso
                  rw [List.getElem?_eq_none_iff] at heq2
                  omega
                next sub heq2 =>
                  have hmain := ih (pos + len0)
                  repeat' split
                  all_goals simpa using hmain

/-- C1: on every input buffer the BOS scanner check_bos terminates (it is a
total function of a structurally decreasing walk), performs no out-of-bounds
read and never raises: its result is always some r.  Moreover any buffer
that is shorter than 5 bytes, or whose byte 0 is below 5, or whose byte 1 is
not the BOS descriptor type tag, produces an empty match set. -/
theorem check_bos_total_and_malformed_empty (buf : List Nat) :
    ∃ r, check_bos buf = some r ∧
      ((buf.length < 5 ∨ buf.getD 0 0 < 5 ∨ buf.getD 1 0 ≠ DESCRIPTOR_TYPE_BOS) →
        bosMatches r = []) := by
  by_cases h5 : buf.length < 5
  · exact ⟨.noBos, by simp [check_bos, h5], fun _ => rfl⟩
  · have h0 : 0 < buf.length := by omega
    have h1 : 1 < buf.length := by omega
    have hg0 : buf.getD 0 0 = buf[0] := by
      simp [List.getD, List.getElem?_eq_getElem h0]
    have hg1 : buf.getD 1 0 = buf[1] := by
      simp [List.getD, List.getElem?_eq_getElem h1]
    rw [check_bos, if_neg h5]
    simp only [List.getElem?_eq_getElem h0, List.getElem?_eq_getElem h1]
    by_cases hb0 : buf[0] < 5
    · exact ⟨.noBos, by simp [hb0], fun _ => rfl⟩
    · rw [if_neg hb0]
      by_cases hb1 : buf[1] = DESCRIPTOR_TYPE_BOS
      · have h2 : 2 < buf.length := by omega
        have h3 : 3 < buf.length := by omega
        have h4 : 4 < buf.length := by omega
        simp only [List.getElem?_eq_getElem h2, List.getElem?_eq_getElem h3,
          List.getElem?_eq_getElem h4, hb1,
          if_neg (by simp : ¬DESCRIPTOR_TYPE_BOS ≠ DESCRIPTOR_TYPE_BOS)]
        obtain ⟨l, hl⟩ := Option.isSome_iff_exists.mp
          (check_bos_loop_isSome buf (min buf.length (buf[2] + buf[3] * 256))
            (min_le_left _ _) buf[4] 5)
        refine ⟨.caps l, by simp [hl], fun hmal => ?_⟩
        rcases hmal with h | h | h
        · omega
        · rw [hg0] at h; omega
        · rw [hg1] at h; exact absurd hb1 h
      · refine ⟨.noBos, ?_, fun _ => rfl⟩
        simp [hb1]

/-- A USB device as seen by the enumerator: its bcdUSB revision and the
outcome of the BOS descriptor control transfer (none models the transfer
raising, which UuidFinder catches and turns into a non-match). -/
structure UsbDev where
  bcdUSB : Nat
  bos : Option (List Nat)
deriving DecidableEq

/-- The custom match UuidFinder performs per device when usb find runs: skip
devices below USB 2.01, skip devices whose BOS transfer raised, then run
check_bos; a non-empty payload list is attached to the device and reported
as a match.  The outer Option models an exception escaping check_bos (which
C1 shows never happens); the inner Option is none for a non-match and some
data for a match carrying the attached payload list. -/
def uuid_finder_call (dev : UsbDev) : Option (Option (List (List Nat))) :=
  if dev.bcdUSB < 0x0201 then some none
  else
    match dev.bos with
    | none => some none
    | some buf =>
      Option.map
        (fun r => if bosMatches r = [] then none else some (bosMatches r))
        (check_bos buf)

/-- usb find with find_all and the UuidFinder custom match: the sublist of
devices that matched, each paired with its attached payload list, in
enumeration order. -/
def usb_find : List UsbDev → Option (List (UsbDev × List (List Nat)))
  | [] => some []
  | d :: ds => do
    let r ← uuid_finder_call d
    let rest ← usb_find ds
    match r with
    | none => pure rest
    | some data => pure ((d, data) :: rest)

/-- UsbFanDevice as constructed by find_fan_devs: the underlying device, the
vendor interface index and the reported protocol version. -/
structure UsbFanDevice where
  dev : UsbDev
  iface : Nat
  version_major : Nat
  version_minor : Nat
deriving DecidableEq

/-- The inner loop of find_fan_devs over the payload list of one matched
device.  found is the global counter; a payload shorter than 3 bytes is
skipped but still counts.  When index equals found the device is appended
and the inner loop breaks without incrementing found (so the returned
counter is unchanged), mirroring the break statement in the source.
Returns the appended devices and the updated counter. -/
def ffd_inner (dev : UsbDev) (index : Option Nat) :
    List (List Nat) → Nat → List UsbFanDevice × Nat
  | [], found => ([], found)
  | data :: rest, found =>
    if 3 ≤ data.length then
      let fans : List UsbFanDevice :=
        if index = none ∨ index = some found then
          [⟨dev, data.getD 2 0, data.getD 1 0, data.getD 0 0⟩]
        else []
      if index = some found then (fans, found)
      else
        let r := ffd_inner dev index rest (found + 1)
        (fans ++ r.1, r.2)
    else ffd_inner dev index rest (found + 1)

/-- The outer loop of find_fan_devs over the matched devices, threading the
global counter through the per-device inner loops. -/
def ffd_outer (index : Option Nat) :
    List (UsbDev × List (List Nat)) → Nat → List UsbFanDevice
  | [], _ => []
  | (dev, datas) :: rest, found =>
    let r := ffd_inner dev index datas found
    r.1 ++ ffd_outer index rest r.2

/-- find_fan_devs: run usb find with the UuidFinder custom match over the
attached devices, then build one UsbFanDevice per matching payload of length
at least 3, whose fields come from payload bytes 2 (interface), 1 (major)
and 0 (minor); index is the optional zero-based selection index. -/
def find_fan_devs (devs : List UsbDev) (index : Option Nat) :
    Option (List UsbFanDevice) :=
  Option.map (fun m => ffd_outer index m 0) (usb_find devs)

/-- A well-formed BOS buffer holding exactly one platform capability that
matches DEVICE_UUID, with payload bytes 7 (minor), 1 (major), 2 (interface
index). -/
def bufOneCap : List Nat :=
  [5, 0x0f, 28, 0, 1, 23, 0x10, 0x05, 0] ++ DEVICE_UUID_BYTES_LE ++ [7, 1, 2]

/-- C2: for a device at or above USB 2.01 whose BOS buffer holds exactly one
capability matching the target UUID, with a payload of at least 3 bytes,
enumeration constructs exactly one UsbFanDevice, whose protocol minor
version is payload byte 0, protocol major version is payload byte 1 and
interface index is payload byte 2, all unchanged. -/
theorem find_fan_devs_extracts_payload (d : UsbDev) (buf payload : List Nat)
    (hv : 0x0201 ≤ d.bcdUSB) (hb : d.bos = some buf)
    (hc : check_bos buf = some (.caps [payload])) (hl : 3 ≤ payload.length) :
    find_fan_devs [d] none =
      some [⟨d, payload.getD 2 0, payload.getD 1 0, payload.getD 0 0⟩] := by
  have hcall : uuid_finder_call d = some (some [payload]) := by
    simp only [uuid_finder_call, if_neg (show ¬d.bcdUSB < 0x0201 by omega), hb, hc]
    simp [bosMatches]
  have hfind : usb_find [d] = some [(d, [payload])] := by
    simp [usb_find, hcall]
  rw [find_fan_devs, hfind]
  simp [ffd_outer, ffd_inner, hl]

/-- Witness for C2 at a concrete device and buffer. -/
theorem find_fan_devs_extracts_payload_witness :
    find_fan_devs [⟨0x0201, some bufOneCap⟩] none =
      some [⟨⟨0x0201, some bufOneCap⟩, 2, 1, 7⟩] :=
  find_fan_devs_extracts_payload ⟨0x0201, some bufOneCap⟩ bufOneCap [7, 1, 2]
    (by decide) rfl (by decide) (by decide)

/-- C3 failing input: selection index 0 against two matched devices, each
exposing one valid matching payload.  The source appends the index-0 match
of the first device and breaks only the inner loop without advancing the
global counter, so the first valid payload of the second device also
compares equal to the index and is appended as well: the call returns both
devices instead of exactly the single selected match, and enumeration never
short-circuits. -/
theorem find_fan_devs_index_no_global_stop :
    find_fan_devs [⟨0x0201, some bufOneCap⟩, ⟨0x0202, some bufOneCap⟩] (some 0) =
      some [⟨⟨0x0201, some bufOneCap⟩, 2, 1, 7⟩, ⟨⟨0x0202, some bufOneCap⟩, 2, 1, 7⟩] := by
  decide

/-- A BOS buffer whose first capability record carries descriptor type 0x11
(not the device capability tag) and is followed by a valid platform
capability matching DEVICE_UUID with payload bytes 7, 1, 2. -/
def bufBadTypeThenMatch : List Nat :=
  [5, 0x0f, 31, 0, 2, 3, 0x11, 0x05] ++ [23, 0x10, 0x05, 0] ++
    DEVICE_UUID_BYTES_LE ++ [7, 1, 2]

/-- Like bufBadTypeThenMatch but the first record has the correct descriptor
type 0x10 and merely a non-platform capability subtype 0x06. -/
def bufSkipSubThenMatch : List Nat :=
  [5, 0x0f, 31, 0, 2, 3, 0x10, 0x06] ++ [23, 0x10, 0x05, 0] ++
    DEVICE_UUID_BYTES_LE ++ [7, 1, 2]

/-- Counterexample to C4: a record whose descriptor type byte is not the
device capability tag stops the walk, so the valid matching capability that
follows it in bufBadTypeThenMatch is not returned; only a failed platform
subtype test (bufSkipSubThenMatch) is skipped over without stopping. -/
theorem check_bos_stops_on_wrong_type :
    check_bos bufBadTypeThenMatch = some (.caps []) ∧
    check_bos bufSkipSubThenMatch = some (.caps [[7, 1, 2]]) := by
  decide

/-- C4 as amended: the capability walk stops early exactly when fewer than 3
bytes remain before the clamped total length, or the declared record length
is below 3, or the descriptor type byte is not the device capability tag, or
the declared length exceeds the remaining bytes.  A record that passes those
checks and fails only the platform capability subtype test does not stop the
walk: the cursor advances by the declared length and the walk continues, so
a matching capability after such a record is still returned. -/
theorem check_bos_walk_stop_and_advance (buf : List Nat) (e pos n len0 ty : Nat)
    (h0 : buf[pos]? = some len0) (h1 : buf[pos + 1]? = some ty) :
    ((e - pos < 3 ∨ len0 < 3 ∨ ty ≠ DESCRIPTOR_TYPE_DEVICE_CAPABILITY ∨ e - pos < len0) →
      check_bos_loop buf e pos (n + 1) = some [])
    ∧ (∀ sub, buf[pos + 2]? = some sub → 3 ≤ e - pos → 3 ≤ len0 →
        ty = DESCRIPTOR_TYPE_DEVICE_CAPABILITY → len0 ≤ e - pos →
        sub ≠ CAPABILITY_TYPE_PLATFORM →
        check_bos_loop buf e pos (n + 1) = check_bos_loop buf e (pos + len0) n) := by
  constructor
  · intro hstop
    rw [check_bos_loop]
    by_cases hc1 : e - pos < 3
    · rw [if_pos hc1]
    · rw [if_neg hc1]
      simp only [h0]
      by_cases hc2 : len0 < 3
      · rw [if_pos hc2]
      · rw [if_neg hc2]
        simp only [h1]
        by_cases hc3 : ty ≠ DESCRIPTOR_TYPE_DEVICE_CAPABILITY
        · rw [if_pos hc3]
        · rw [if_neg hc3]
          have hc4 : e - pos < len0 := by tauto
          rw [if_pos hc4]
  · intro sub h2 hr hl hty hle hsub
    rw [check_bos_loop, if_neg (by omega)]
    simp only [h0]
    rw [if_neg (by omega)]
    simp only [h1]
    rw [if_neg (by simp [hty]), if_neg (by omega)]
    simp only [h2]
    rw [if_neg (by simp [hsub])]

/-- Witness for C4 as amended: in bufSkipSubThenMatch the walk steps over
the subtype-failing first record at cursor 5 and continues at cursor 8. -/
theorem check_bos_walk_stop_and_advance_witness :
    check_bos_loop bufSkipSubThenMatch 31 5 2 = check_bos_loop bufSkipSubThenMatch 31 8 1 :=
  (check_bos_walk_stop_and_advance bufSkipSubThenMatch 31 5 1 3 0x10
      (by decide) (by decide)).2 6 (by decide) (by decide) (by decide) rfl
    (by decide) (by decide)

/-- Helper for C5: every payload the capability walk collects is a
contiguous slice of the source buffer. -/
theorem check_bos_loop_payloads_within (buf : List Nat) (e : Nat) :
    ∀ n pos l, check_bos_loop buf e pos n = some l →
      ∀ p ∈ l, ∃ s t, buf = s ++ p ++ t := by
  intro n
  induction n with
  | zero =>
    intro pos l h p hp
    rw [check_bos_loop] at h
    injection h with h
    subst h
    simp at hp
  | succ k ih =>
    intro pos l h p hp
    rw [check_bos_loop] at h
    split at h
    · injection h with h; subst h; simp at hp
    · split at h
      · exact absurd h (by simp)
      next len0 heq =>
        split at h
        · injection h with h; subst h; simp at hp
        · split at h
          · exact absurd h (by simp)
          next ty heq1 =>
            split at h
            · injection h with h; subst h; simp at hp
            · split at h
              · injection h with h; subst h; simp at hp
              · split at h
                · exact absurd h (by simp)
                next sub heq2 =>
                  split at h
                  · split at h
                    · rw [Option.map_eq_some'] at h
                      obtain ⟨l', hl', rfl⟩ := h
                      rcases List.mem_cons.mp hp with rfl | hmem
                      · refine ⟨buf.take (pos + 20),
                          (buf.drop (pos + 20)).drop (len0 - 20), ?_⟩
                        rw [List.append_assoc, List.take_append_drop,
                          List.take_append_drop]
                      · exact ih (pos + len0) l' hl' p hmem
                    · exact ih (pos + len0) l h p hp
                  · exact ih (pos + len0) l h p hp

/-- C5: every payload check_bos returns lies fully within the source buffer,
and whenever a record passes the first checks but declares a length that
exceeds the bytes remaining before the clamped total length, the walk halts
at that record and contributes no further payloads (so the overall result
holds only the capabilities validated before it). -/
theorem check_bos_payload_bounds :
    (∀ buf r, check_bos buf = some r → ∀ p ∈ bosMatches r, ∃ s t, buf = s ++ p ++ t)
    ∧ (∀ (buf : List Nat) (e pos n len0 ty : Nat), buf[pos]? = some len0 →
        buf[pos + 1]? = some ty → 3 ≤ e - pos → 3 ≤ len0 →
        ty = DESCRIPTOR_TYPE_DEVICE_CAPABILITY → e - pos < len0 →
        check_bos_loop buf e pos (n + 1) = some []) := by
  constructor
  · intro buf r h p hp
    rw [check_bos] at h
    split at h
    · injection h with h; subst h; simp [bosMatches] at hp
    · split at h
      · exact absurd h (by simp)
      · split at h
        · injection h with h; subst h; simp [bosMatches] at hp
        · split at h
          · exact absurd h (by simp)
          · split at h
            · injection h with h; subst h; simp [bosMatches] at hp
            · split at h
              · rw [Option.map_eq_some'] at h
                obtain ⟨l, hl, rfl⟩ := h
                simp only [bosMatches] at hp
                exact check_bos_loop_payloads_within buf _ _ 5 l hl p hp
              · exact absurd h (by simp)
  · intro buf e pos n len0 ty h0 h1 hr hl hty hover
    rw [check_bos_loop, if_neg (by omega)]
    simp only [h0]
    rw [if_neg (by omega)]
    simp only [h1]
    rw [if_neg (by simp [hty]), if_pos hover]

/-- Witness for C5 at a concrete overlong record: declared length 50 against
3 remaining bytes halts the walk with no payloads. -/
theorem check_bos_payload_bounds_witness :
    check_bos_loop [0, 0, 0, 0, 0, 50, 16, 0] 8 5 1 = some [] :=
  check_bos_payload_bounds.2 [0, 0, 0, 0, 0, 50, 16, 0] 8 5 0 50 16
    (by decide) (by decide) (by decide) (by decide) rfl (by decide)

/-- The comparison UsbFanDevice.version_ok performs, with the required pair
explicit: the reported major must equal the required major exactly and the
reported minor must not be below the required minor. -/
def version_ok_against (req_major req_minor major minor : Nat) : Bool :=
  if major ≠ req_major then false
  else if minor < req_minor then false
  else true

/-- UsbFanDevice.version_ok: the comparison above against the module
constants DEVICE_MAJOR and DEVICE_MINOR. -/
def UsbFanDevice.version_ok (d : UsbFanDevice) : Bool :=
  version_ok_against DEVICE_MAJOR DEVICE_MINOR d.version_major d.version_minor

/-- C6: version_ok holds exactly when the reported major equals the required
major and the reported minor is at least the required minor; in particular
1.0 against requirement 1.0 passes, major 2 fails regardless of minor, and
1.1 against requirement 1.2 fails. -/
theorem version_ok_iff :
    (∀ d : UsbFanDevice, UsbFanDevice.version_ok d = true ↔
        (d.version_major = DEVICE_MAJOR ∧ DEVICE_MINOR ≤ d.version_minor))
    ∧ (∀ req_major req_minor major minor,
        version_ok_against req_major req_minor major minor = true ↔
          (major = req_major ∧ req_minor ≤ minor))
    ∧ version_ok_against DEVICE_MAJOR DEVICE_MINOR 1 0 = true
    ∧ (∀ minor, version_ok_against DEVICE_MAJOR DEVICE_MINOR 2 minor = false)
    ∧ version_ok_against 1 2 1 1 = false := by
  have hgen : ∀ a b c d, version_ok_against a b c d = true ↔ (c = a ∧ b ≤ d) := by
    intro a b c d
    rw [version_ok_against]
    split_ifs with h1 h2 <;> simp_all
  refine ⟨fun d => hgen _ _ _ _, hgen, ?_, ?_, ?_⟩
  · decide
  · intro minor
    rw [version_ok_against]
    simp [DEVICE_MAJOR]
  · decide

/-- The Python builtin round on rationals: nearest integer with ties going
to the even neighbour.  This models round applied to the exact real values
the source computes with floats. -/
def pyRound (q : ℚ) : ℤ :=
  let f := ⌊q⌋
  let r := q - f
  if r < 1 / 2 then f
  else if 1 / 2 < r then f + 1
  else if f % 2 = 0 then f else f + 1

/-- FanDevice.set_frequency: the value written to the PWM period register,
round of 16000000 divided by the requested frequency, with the out-of-range
sentinel 0 when the result exceeds the 16-bit register range. -/
def set_frequency (freq : ℚ) : ℤ :=
  let max_duty := pyRound (16000000 / freq)
  if 0xffff < max_duty then 0 else max_duty

/-- FanDevice.get_frequency: reads the PWM period register value max_duty
and reports 16000000 divided by it, rounded to 2 decimal places. -/
def get_frequency (max_duty : ℤ) : ℚ :=
  pyRound (16000000 / (max_duty : ℚ) * 100) / 100

/-- Counterexample to C7: at hz equal to 16000000 divided by 65532, which is
in the representable range, set_frequency followed by get_frequency (the
period register returning the value just written) differs from hz by about
0.00447, more than one part in 65535 of hz (about 0.00373): the 2-decimal
rounding of get_frequency dominates the error bound for large divisors. -/
theorem frequency_roundtrip_counterexample :
    (16000000 : ℚ) / 65532 / 65535 <
      get_frequency (set_frequency (16000000 / 65532)) - 16000000 / 65532 := by
  norm_num [get_frequency, set_frequency, pyRound]

/-- Rounding moves a rational by at most one half. -/
theorem pyRound_sub_le (q : ℚ) : |(pyRound q : ℚ) - q| ≤ 1 / 2 := by
  have h0 : (0 : ℚ) ≤ q - ⌊q⌋ := by
    have := Int.floor_le q
    linarith
  have h1 : q - ⌊q⌋ < 1 := by
    have := Int.lt_floor_add_one q
    linarith
  rw [pyRound]
  split_ifs with ha hb hc
  · rw [abs_sub_comm, abs_of_nonneg h0]
    linarith
  · push_cast
    rw [abs_of_nonneg (by linarith)]
    linarith
  · have hr : q - (⌊q⌋ : ℚ) = 1 / 2 := le_antisymm (not_lt.mp hb) (not_lt.mp ha)
    rw [abs_sub_comm, abs_of_nonneg h0]
    linarith
  · have hr : q - (⌊q⌋ : ℚ) = 1 / 2 := le_antisymm (not_lt.mp hb) (not_lt.mp ha)
    push_cast
    rw [abs_of_nonneg (by linarith)]
    linarith

/-- Rounding an integer value returns it unchanged. -/
theorem pyRound_intCast (n : ℤ) : pyRound (n : ℚ) = n := by
  rw [pyRound]
  simp [Int.floor_intCast]

/-- C7 as amended: for hz of the form 16000000 divided by an integer N with
1 ≤ N ≤ 65535, the set_frequency and get_frequency round trip through the
period register returns a value within one part in 65535 of hz or within
0.005 Hz of hz, the half-step of the two-decimal rounding performed by
get_frequency (the original one-part-in-65535 bound alone fails, see the
counterexample). -/
theorem frequency_roundtrip_amended (N : ℕ) (hN1 : 1 ≤ N) (hN2 : N ≤ 65535) :
    |get_frequency (set_frequency (16000000 / (N : ℚ))) - 16000000 / (N : ℚ)| ≤
      max ((16000000 / (N : ℚ)) / 65535) (1 / 200) := by
  have hN : (N : ℚ) ≠ 0 := Nat.cast_ne_zero.mpr (by omega)
  have hinv : (16000000 : ℚ) / (16000000 / (N : ℚ)) = (N : ℚ) := by
    field_simp
  have hset : set_frequency (16000000 / (N : ℚ)) = (N : ℤ) := by
    rw [set_frequency, hinv]
    have hcast : ((N : ℤ) : ℚ) = (N : ℚ) := by push_cast; rfl
    rw [← hcast, pyRound_intCast]
    rw [if_neg (by exact_mod_cast not_lt.mpr (show N ≤ 65535 by omega))]
  rw [hset, get_frequency]
  refine le_max_of_le_right ?_
  have hx := pyRound_sub_le (16000000 / ((N : ℤ) : ℚ) * 100)
  have hsplit : (pyRound (16000000 / ((N : ℤ) : ℚ) * 100) : ℚ) / 100 -
        16000000 / (N : ℚ) =
      ((pyRound (16000000 / ((N : ℤ) : ℚ) * 100) : ℚ) -
        16000000 / ((N : ℤ) : ℚ) * 100) / 100 := by
    push_cast
    ring
  rw [hsplit, abs_div]
  rw [show |(100 : ℚ)| = 100 by norm_num]
  calc |(pyRound (16000000 / ((N : ℤ) : ℚ) * 100) : ℚ) -
        16000000 / ((N : ℤ) : ℚ) * 100| / 100 ≤ (1 / 2) / 100 := by gcongr
    _ = 1 / 200 := by norm_num

/-- Witness for C7 as amended, at N equal to 4000 (a 4 kHz request). -/
theorem frequency_roundtrip_amended_witness :
    |get_frequency (set_frequency (16000000 / ((4000 : ℕ) : ℚ))) -
        16000000 / ((4000 : ℕ) : ℚ)| ≤
      max ((16000000 / ((4000 : ℕ) : ℚ)) / 65535) (1 / 200) :=
  frequency_roundtrip_amended 4000 (by decide) (by decide)

/-- A serial port as reported by the port listing: an opaque device path and
the hardware id byte string. -/
structure PortInfo where
  device : Nat
  hwid : List Nat
deriving DecidableEq

/-- The hardware id test of get_bootloader_port: the id starts with the
three bytes of the USB tag. -/
def hwid_is_usb (h : List Nat) : Bool := decide (h.take 3 = [85, 83, 66])

/-- The snapshot get_bootloader_port builds before rebooting: the pairs of
device path and hardware id of all USB serial ports. -/
def snapshot_usb (ports : List PortInfo) : List (Nat × List Nat) :=
  (ports.filter fun p => hwid_is_usb p.hwid).map fun p => (p.device, p.hwid)

/-- Outcome of one pass over the listed ports inside the polling loop:
either the answer port was found, or the pairs to carry forward. -/
inductive ScanResult where
  | found (device : Nat)
  | carried (after : List (Nat × List Nat))
deriving DecidableEq

/-- The inner for loop of one poll of get_bootloader_port: walk the listed
ports in order; a USB port whose pair is already in before is carried into
after, and the first USB port whose pair is absent from before is returned
immediately. -/
def scan_ports (before : List (Nat × List Nat)) (acc : List (Nat × List Nat)) :
    List PortInfo → ScanResult
  | [] => .carried acc
  | p :: ps =>
    if hwid_is_usb p.hwid then
      if (p.device, p.hwid) ∈ before then
        scan_ports before (acc ++ [(p.device, p.hwid)]) ps
      else .found p.device
    else scan_ports before acc ps

/-- The while loop of get_bootloader_port over a trace of polls, each a port
listing paired with the clock value read at the timeout check of that
iteration.  The result some (some d) is a found port, some none is the
timeout return, and none means the supplied trace ended with the loop still
polling (the source would keep polling). -/
def poll_loop (before : List (Nat × List Nat)) (timeout : Option ℚ) (start : ℚ) :
    List (List PortInfo × ℚ) → Option (Option Nat)
  | [] => none
  | (ports, now) :: rest =>
    match scan_ports before [] ports with
    | .found d => some (some d)
    | .carried after =>
      match timeout with
      | some t =>
        if start + t < now then some none else poll_loop after (some t) start rest
      | none => poll_loop after none start rest

/-- get_bootloader_port: snapshot the USB serial ports, reboot (a side
effect outside this model; start is the clock value right after it), then
poll until a changed port or the deadline. -/
def get_bootloader_port (initial : List PortInfo) (timeout : Option ℚ) (start : ℚ)
    (trace : List (List PortInfo × ℚ)) : Option (Option Nat) :=
  poll_loop (snapshot_usb initial) timeout start trace

/-- Helper for C8: when some listed USB port has a pair absent from before,
the pass returns the device path of such a port. -/
theorem scan_ports_found (before : List (Nat × List Nat)) :
    ∀ (ports : List PortInfo) (acc : List (Nat × List Nat)),
      (∃ p ∈ ports, hwid_is_usb p.hwid = true ∧ (p.device, p.hwid) ∉ before) →
      ∃ p ∈ ports, hwid_is_usb p.hwid = true ∧ (p.device, p.hwid) ∉ before ∧
        scan_ports before acc ports = .found p.device := by
  intro ports
  induction ports with
  | nil => intro acc h; simp at h
  | cons p ps ih =>
    intro acc h
    by_cases husb : hwid_is_usb p.hwid
    · by_cases hmem : (p.device, p.hwid) ∈ before
      · obtain ⟨q, hq, hqu, hqb⟩ := h
        rcases List.mem_cons.mp hq with rfl | hq'
        · exact absurd hmem hqb
        · obtain ⟨q', hq', hu', hb', hs'⟩ := ih (acc ++ [(p.device, p.hwid)])
            ⟨q, hq', hqu, hqb⟩
          refine ⟨q', List.mem_cons_of_mem _ hq', hu', hb', ?_⟩
          rw [scan_ports, if_pos husb, if_pos hmem]
          exact hs'
      · refine ⟨p, List.mem_cons_self _ _, husb, hmem, ?_⟩
        rw [scan_ports, if_pos husb, if_neg hmem]
    · obtain ⟨q, hq, hqu, hqb⟩ := h
      rcases List.mem_cons.mp hq with rfl | hq'
      · exact absurd hqu husb
      · obtain ⟨q', hq'', hu', hb', hs'⟩ := ih acc ⟨q, hq', hqu, hqb⟩
        refine ⟨q', List.mem_cons_of_mem _ hq'', hu', hb', ?_⟩
        rw [scan_ports, if_neg husb]
        exact hs'

/-- Helper for C8: a pass that found nothing new carries forward exactly the
USB snapshot of the ports it listed, so the next iteration compares against
the previous snapshot. -/
theorem scan_ports_carried (before : List (Nat × List Nat)) :
    ∀ (ports : List PortInfo) (acc after : List (Nat × List Nat)),
      scan_ports before acc ports = .carried after →
      after = acc ++ snapshot_usb ports := by
  intro ports
  induction ports with
  | nil =>
    intro acc after h
    rw [scan_ports] at h
    injection h with h
    simp [snapshot_usb, h]
  | cons p ps ih =>
    intro acc after h
    by_cases husb : hwid_is_usb p.hwid
    · by_cases hmem : (p.device, p.hwid) ∈ before
      · rw [scan_ports, if_pos husb, if_pos hmem] at h
        have := ih _ _ h
        simp [snapshot_usb, husb] at this ⊢
        simp [this]
      · rw [scan_ports, if_pos husb, if_neg hmem] at h
        exact absurd h (by simp)
    · rw [scan_ports, if_neg husb] at h
      have := ih _ _ h
      simpa [snapshot_usb, husb] using this

/-- Helper for C8: with a timeout, the loop never reports not-found while
every poll so far happened at or before the deadline. -/
theorem poll_loop_no_early_timeout (t start : ℚ) :
    ∀ (trace : List (List PortInfo × ℚ)) (before : List (Nat × List Nat)),
      (∀ e ∈ trace, e.2 ≤ start + t) →
      poll_loop before (some t) start trace ≠ some none := by
  intro trace
  induction trace with
  | nil => intro before _ h; rw [poll_loop] at h; exact absurd h (by simp)
  | cons entry rest ih =>
    obtain ⟨ports, now⟩ := entry
    intro before hts h
    rw [poll_loop] at h
    rcases hscan : scan_ports before [] ports with d | after
    · rw [hscan] at h
      exact absurd h (by simp)
    · simp only [hscan] at h
      have hnow : now ≤ start + t := hts _ (List.mem_cons_self _ _)
      rw [if_neg (by simp only [not_lt]; exact hnow)] at h
      exact ih after (fun e he => hts e (List.mem_cons_of_mem _ he)) h

/-- Helper for C8: without a timeout the loop never reports not-found. -/
theorem poll_loop_no_timeout_none (start : ℚ) :
    ∀ (trace : List (List PortInfo × ℚ)) (before : List (Nat × List Nat)),
      poll_loop before none start trace ≠ some none := by
  intro trace
  induction trace with
  | nil => intro before h; rw [poll_loop] at h; exact absurd h (by simp)
  | cons entry rest ih =>
    obtain ⟨ports, now⟩ := entry
    intro before h
    rw [poll_loop] at h
    rcases hscan : scan_ports before [] ports with d | after
    · rw [hscan] at h
      exact absurd h (by simp)
    · simp only [hscan] at h
      exact ih after h

/-- C8: whenever a poll observes a USB serial port whose pair of device path
and hardware id is absent from the carried state, the loop immediately
returns the path of such a port regardless of the later polls and of the
timeout; a pass that found nothing carries forward exactly the snapshot it
listed (so the state compared against is the previous snapshot); with a
timeout, the not-found result is returned only once a poll runs past the
deadline (never before); and with no timeout the detector never returns
not-found, polling indefinitely. -/
theorem bootloader_port_detection_spec :
    (∀ (before : List (Nat × List Nat)) (ports : List PortInfo) (now : ℚ)
        (rest : List (List PortInfo × ℚ)) (timeout : Option ℚ) (start : ℚ),
        (∃ p ∈ ports, hwid_is_usb p.hwid = true ∧ (p.device, p.hwid) ∉ before) →
        ∃ p ∈ ports, hwid_is_usb p.hwid = true ∧ (p.device, p.hwid) ∉ before ∧
          poll_loop before timeout start ((ports, now) :: rest) = some (some p.device))
    ∧ (∀ (before : List (Nat × List Nat)) (ports : List PortInfo)
        (after : List (Nat × List Nat)),
        scan_ports before [] ports = .carried after → after = snapshot_usb ports)
    ∧ (∀ (initial : List PortInfo) (t start : ℚ) (trace : List (List PortInfo × ℚ)),
        (∀ e ∈ trace, e.2 ≤ start + t) →
        get_bootloader_port initial (some t) start trace ≠ some none)
    ∧ (∀ (initial : List PortInfo) (start : ℚ) (trace : List (List PortInfo × ℚ)),
        get_bootloader_port initial none start trace ≠ some none) := by
  refine ⟨?_, ?_, ?_, ?_⟩
  · intro before ports now rest timeout start h
    obtain ⟨p, hp, hu, hb, hs⟩ := scan_ports_found before ports [] h
    refine ⟨p, hp, hu, hb, ?_⟩
    rw [poll_loop, hs]
  · intro before ports after h
    simpa using scan_ports_carried before ports [] after h
  · intro initial t start trace hts
    exact poll_loop_no_early_timeout t start trace _ hts
  · intro initial start trace
    exact poll_loop_no_timeout_none start trace _

/-- Witness for C8: a single new USB port against an empty carried state is
returned on the first poll. -/
theorem bootloader_port_detection_witness :
    ∃ p ∈ [PortInfo.mk 1 [85, 83, 66, 9]], hwid_is_usb p.hwid = true ∧
      (p.device, p.hwid) ∉ ([] : List (Nat × List Nat)) ∧
      poll_loop [] none 0 [([PortInfo.mk 1 [85, 83, 66, 9]], 0)] = some (some p.device) :=
  bootloader_port_detection_spec.1 [] [PortInfo.mk 1 [85, 83, 66, 9]] 0 [] none 0
    ⟨PortInfo.mk 1 [85, 83, 66, 9], by decide⟩

/-- A value returned by SerialFanDevice.read_register: an integer (also the
sentinel -1 on timeout), the text of the serial number register, or err for
a ValueError raised by int on a non-numeric response line. -/
inductive SerialValue where
  | int (i : ℤ)
  | text (s : List Nat)
  | err
deriving DecidableEq

/-- The echo-clearing loop of SerialFanDevice.read_register.  The serial
transport is modelled as the list of outcomes of the successive one-byte
reads: some b is a byte, none is a read that returned no bytes (timeout);
an exhausted list also models timeout, since the device sends nothing more.
Returns none when a timeout was hit, otherwise the rest of the stream after
the first newline. -/
def skip_echo : List (Option Nat) → Option (List (Option Nat))
  | [] => none
  | none :: _ => none
  | some b :: rest => if b = 10 then some rest else skip_echo rest

/-- The response-collecting loop of SerialFanDevice.read_register: bytes up
to the next newline, carriage returns dropped; none when a read times
out. -/
def read_line (acc : List Nat) : List (Option Nat) → Option (List Nat × List (Option Nat))
  | [] => none
  | none :: _ => none
  | some b :: rest =>
    if b = 10 then some (acc, rest)
    else if b = 13 then read_line acc rest
    else read_line (acc ++ [b]) rest

/-- Value of an ASCII decimal digit byte. -/
def digit_val (b : Nat) : Option Nat :=
  if 48 ≤ b ∧ b ≤ 57 then some (b - 48) else none

/-- Decimal accumulation over digit bytes; none on a non-digit. -/
def parse_digits_aux (acc : Nat) : List Nat → Option Nat
  | [] => some acc
  | b :: rest =>
    match digit_val b with
    | none => none
    | some d => parse_digits_aux (acc * 10 + d) rest

/-- Digits of a decimal number; none when empty or containing a
non-digit. -/
def parse_digits : List Nat → Option Nat
  | [] => none
  | l => parse_digits_aux 0 l

/-- The Python int constructor as applied to a response line: an optional
ASCII sign followed by decimal digits.  (The device protocol produces only
such lines; surrounding whitespace and underscore separators, which Python
also accepts, never occur and are not modelled.)  none models the raised
ValueError. -/
def parse_int (s : List Nat) : Option ℤ :=
  match s with
  | 45 :: rest => Option.map (fun n => -(n : ℤ)) (parse_digits rest)
  | 43 :: rest => Option.map (fun n => (n : ℤ)) (parse_digits rest)
  | _ => Option.map (fun n => (n : ℤ)) (parse_digits s)

/-- Serial port control of a fan device; the field is the opaque identity of
the port the constructor opened. -/
structure SerialFanDevice where
  port : Nat
deriving DecidableEq

/-- SerialFanDevice.read_register: send the read command (a pure write, not
modelled), discard the echoed line, read the response line, then decode it
as text for the serial number register and as an integer otherwise.  Either
loop returns the sentinel -1 as soon as a transport read yields no
bytes. -/
def SerialFanDevice.read_register (reg : Nat) (stream : List (Option Nat)) : SerialValue :=
  match skip_echo stream with
  | none => .int (-1)
  | some rest =>
    match read_line [] rest with
    | none => .int (-1)
    | some (data, _) =>
      if reg = REGISTER_SERIAL_NUMBER then .text data
      else
        match parse_int data with
        | some i => .int i
        | none => .err

/-- SerialFanDevice.version_ok: the body of the source method is a bare
return True. -/
def SerialFanDevice.version_ok (_d : SerialFanDevice) : Bool := true

/-- The version gate in check_and_run inside main: the command runs unless
the option requests a version check and version_ok returns false. -/
def check_and_run_runs (version_check : Bool) (ok : Bool) : Bool :=
  !version_check || ok

/-- Helper for C9: the response loop hits the timeout read when no newline
byte precedes it. -/
theorem read_line_all_no_newline (rest : List (Option Nat)) :
    ∀ (l : List Nat) (acc : List Nat), l.count 10 = 0 →
      read_line acc (l.map some ++ none :: rest) = none := by
  intro l
  induction l with
  | nil => intro acc _; simp [read_line]
  | cons b l' ih =>
    intro acc hc
    have hb : b ≠ 10 := by
      intro hb
      rw [List.count_cons] at hc
      simp [hb] at hc
    have hc' : l'.count 10 = 0 := by
      rw [List.count_cons] at hc
      omega
    by_cases hb13 : b = 13
    · simp only [List.map_cons, List.cons_append, read_line, if_neg hb, if_pos hb13]
      exact ih acc hc'
    · simp only [List.map_cons, List.cons_append, read_line, if_neg hb, if_neg hb13]
      exact ih (acc ++ [b]) hc'

/-- C9: whenever a transport read returns no bytes before the two response
newlines arrived (so during either loop), read_register returns the
sentinel -1 instead of raising, for every register, the serial number
register included.  The stream shape is any run of bytes holding at most
one newline, then a timed-out read. -/
theorem serial_read_register_timeout_sentinel (reg : Nat) :
    ∀ (pre : List Nat) (rest : List (Option Nat)), pre.count 10 ≤ 1 →
      SerialFanDevice.read_register reg (pre.map some ++ none :: rest) = .int (-1) := by
  intro pre
  induction pre with
  | nil =>
    intro rest _
    simp [SerialFanDevice.read_register, skip_echo]
  | cons b pre' ih =>
    intro rest hc
    by_cases hb : b = 10
    · have hc' : pre'.count 10 = 0 := by
        rw [List.count_cons] at hc
        simp [hb] at hc
        omega
      rw [SerialFanDevice.read_register]
      simp only [List.map_cons, List.cons_append, skip_echo, if_pos hb, List.append_eq]
      rw [read_line_all_no_newline rest pre' [] hc']
    · have hc' : pre'.count 10 ≤ 1 := by
        rw [List.count_cons] at hc
        omega
      have hskip : skip_echo ((b :: pre').map some ++ none :: rest) =
          skip_echo (pre'.map some ++ none :: rest) := by
        simp only [List.map_cons, List.cons_append, skip_echo, if_neg hb, List.append_eq]
      have hgoal := ih rest hc'
      rw [SerialFanDevice.read_register] at hgoal ⊢
      rw [hskip]
      exact hgoal

/-- Witness for C9: reading the serial number register over a stream that
echoes one line and then times out returns the sentinel -1. -/
theorem serial_read_register_timeout_sentinel_witness :
    SerialFanDevice.read_register REGISTER_SERIAL_NUMBER
      ([82, 10].map some ++ none :: []) = .int (-1) :=
  serial_read_register_timeout_sentinel REGISTER_SERIAL_NUMBER [82, 10] [] (by decide)

/-- C10: SerialFanDevice.version_ok returns true unconditionally for every
serial device, so the version gate never blocks an operation issued over
the serial transport. -/
theorem serial_version_ok_always_true :
    (∀ d : SerialFanDevice, SerialFanDevice.version_ok d = true)
    ∧ (∀ (d : SerialFanDevice) (version_check : Bool),
        check_and_run_runs version_check (SerialFanDevice.version_ok d) = true) := by
  constructor
  · intro d
    rfl
  · intro d vc
    cases vc <;> rfl

end UsbPwmFan
